import Mathlib

/-!
Shallow embedding of `src/packagedcode/debian_copyright.py` (scancode-toolkit):
detection of declared and normalized licenses and copyrights in Debian
copyright files.  Strings are modelled through their character lists so that
every operation is a plain structural recursion; the external collaborators
(the free-text license detector `compute_normalized_license`, the text
detector `get_normalized_expression` and the license-expression engine
`Licensing`) are passed in as parameters, mirroring their black-box role in
the source.
-/

namespace DebianCopyrightModel

/-! ### Character-list string helpers (Python string primitives) -/

/-- Python `s.startswith(pat)` on character lists: `leadsWith pat s`. -/
def leadsWith : List Char → List Char → Bool
  | [], _ => true
  | _ :: _, [] => false
  | a :: as, b :: bs => a == b && leadsWith as bs

/-- Python `s.startswith(pat)`. -/
def strStartsWith (s pat : String) : Bool :=
  leadsWith pat.data s.data

/-- Python `s.lower()` (simple per-character case mapping). -/
def strToLower (s : String) : String :=
  ⟨s.data.map Char.toLower⟩

/-- Drop the characters of `cs` from the front of `l`. -/
def stripLeft (cs : List Char) (l : List Char) : List Char :=
  l.dropWhile (fun c => cs.contains c)

/-- Drop the characters of `cs` from both ends of `l`. -/
def stripBoth (cs : List Char) (l : List Char) : List Char :=
  ((stripLeft cs l).reverse.dropWhile (fun c => cs.contains c)).reverse

/-- Python `s.strip(chars)`. -/
def stripChars (s : String) (cs : List Char) : String :=
  ⟨stripBoth cs s.data⟩

/-- Characters stripped by Python `str.strip()` with no argument. -/
def PY_WHITESPACE : List Char :=
  [' ', '\t', '\n', '\r', Char.ofNat 11, Char.ofNat 12]

/-- Python `s.strip()`. -/
def pyStrip (s : String) : String :=
  stripChars s PY_WHITESPACE

/-- Join character-list words with a separator (Python `sep.join`). -/
def joinSep (sep : List Char) : List (List Char) → List Char
  | [] => []
  | [w] => w
  | w :: ws => w ++ sep ++ joinSep sep ws

/-- Python `'\n'.join(l)`. -/
def joinNL (l : List String) : String :=
  ⟨joinSep ['\n'] (l.map String.data)⟩

/-- Python `s.partition('\t')` restricted to the two parts the source uses:
the text before the first tab and the text after it. -/
def partitionTab : List Char → List Char × List Char
  | [] => ([], [])
  | c :: rest =>
    if c == '\t' then ([], rest)
    else
      let p := partitionTab rest
      (c :: p.1, p.2)

/-- Split a character list into space-separated words. -/
def splitWordsAux : List Char → List Char → List (List Char)
  | [], acc => if acc.isEmpty then [] else [acc.reverse]
  | c :: cs, acc =>
    if c == ' ' then
      if acc.isEmpty then splitWordsAux cs []
      else acc.reverse :: splitWordsAux cs []
    else splitWordsAux cs (c :: acc)

/-! ### The license-expression engine interface

Modelled from the spec: the expression engine (`license_expression.Licensing`)
is an external collaborator specified only through the interface the source
consumes: `parse(string)`, variadic `AND`, `simplify()` and `str()`. -/

structure Licensing (E : Type) where
  parse : String → E
  AND : List E → E
  simplify : E → E
  toStr : E → String

/-- Modelled from the spec: a concrete AND-only boolean license expression
type realizing the external engine interface, used to instantiate theorems
at concrete inputs. -/
inductive LExpr where
  | atom (key : String)
  | conj (args : List LExpr)

mutual

/-- Atoms of an AND-only expression, in order of appearance. -/
def latoms : LExpr → List String
  | .atom k => [k]
  | .conj es => latomsList es

def latomsList : List LExpr → List String
  | [] => []
  | e :: es => latoms e ++ latomsList es

end

mutual

/-- Boolean semantics of an AND-only expression under valuation `v`. -/
def leval (v : String → Bool) : LExpr → Bool
  | .atom k => v k
  | .conj es => levalConj v es

def levalConj (v : String → Bool) : List LExpr → Bool
  | [] => true
  | e :: es => leval v e && levalConj v es

end

/-- Append `s` to `l` unless already present (Python
`if s not in l: l.append(s)`). -/
def addIfAbsent (l : List String) (s : String) : List String :=
  if l.contains s then l else l ++ [s]

/-- Modelled from the spec: parsing an AND-only expression string into the
concrete engine, splitting on whitespace and treating `AND` words as the
conjunction operator. -/
def lparse (s : String) : LExpr :=
  let toks := (splitWordsAux s.data []).filter (fun w => !(w == "AND".data))
  match toks with
  | [t] => .atom ⟨t⟩
  | ts => .conj (ts.map (fun t => .atom ⟨t⟩))

/-- Modelled from the spec: boolean simplification of an AND-only expression
(flattening and idempotence). -/
def lsimplify (e : LExpr) : LExpr :=
  match (latoms e).foldl addIfAbsent [] with
  | [k] => .atom k
  | ks => .conj (ks.map .atom)

/-- Modelled from the spec: rendering an AND-only expression to its canonical
string form. -/
def ltoStr (e : LExpr) : String :=
  ⟨joinSep " AND ".data ((latoms e).map String.data)⟩

/-- The concrete sample engine. -/
def SL : Licensing LExpr :=
  ⟨lparse, .conj, lsimplify, ltoStr⟩

/-! ### Data model

Modelled from the spec: the document parser (the `debut` library) is an
external collaborator; paragraphs expose an optional `license` field with
optional `name` and `text`, `copyright.statements` for header and files
paragraphs, a files pattern for files paragraphs, and a full rendered text
(`dumps`) for catch-all paragraphs. -/

structure LicenseField where
  name : Option String
  text : Option String
deriving DecidableEq

/-- A paragraph of a Debian copyright file: `CopyrightHeaderParagraph`,
`CopyrightFilesParagraph` or `CatchAllParagraph`. -/
inductive Paragraph where
  | header (license : Option LicenseField) (statements : List String)
  | files (pat : String) (license : Option LicenseField) (statements : List String)
  | catchAll (license : Option LicenseField) (text : String)
deriving DecidableEq

/-- The `license` attribute of a paragraph. -/
def Paragraph.licenseField : Paragraph → Option LicenseField
  | .header lic _ => lic
  | .files _ lic _ => lic
  | .catchAll lic _ => lic

/-- The license name carried by a paragraph, with absent fields read as the
empty (falsy) string. -/
def paraName (p : Paragraph) : String :=
  ((p.licenseField).bind LicenseField.name).getD ""

/-- A structure holding the three strings returned by `parse_copyright_file`. -/
structure CopyrightResult where
  declared_license : String
  detected_license : String
  copyrights : String
deriving DecidableEq

/-! ### `fix_copyright` -/

/-- The fixed tuple of license-name prefixes that mark body text
(`NOT_A_LICENSE_NAME` in `fix_copyright`). -/
def NOT_A_LICENSE_NAME : List String :=
  [ "according to"
  , "by obtaining"
  , "distributed under the terms of the gnu"
  , "gnu general public license version 2 as published by the free"
  , "gnu lesser general public license 2.1 as published by the"
  ]

/-- One iteration of the `fix_copyright` loop on a single paragraph.  The
branch for names matching `NOT_A_LICENSE_NAME` reads `license.text` where
`license` is unbound in the source (it resolves to the Python site builtin),
so that branch raises instead of moving the name into the license text. -/
def fix_paragraph (p : Paragraph) : Except String Paragraph :=
  match p.licenseField with
  | none => .ok p
  | some lic =>
    match lic.name with
    | none => .ok p
    | some license_name =>
      if license_name = "" then .ok p
      else
        let p1 :=
          if strStartsWith license_name "200" then
            match p with
            | .header lic2 stmts =>
                .header (lic2.map (fun l => { l with name := none })) (stmts ++ [license_name])
            | .files pat lic2 stmts =>
                .files pat (lic2.map (fun l => { l with name := none })) (stmts ++ [license_name])
            | q => q
          else p
        if NOT_A_LICENSE_NAME.any (fun pre => strStartsWith (strToLower license_name) pre) then
          .error "AttributeError: the name license is unbound in fix_copyright"
        else .ok p1

/-- `fix_copyright`: repair every paragraph of the document in order,
propagating the exception raised by the unbound-name branch. -/
def fix_copyright : List Paragraph → Except String (List Paragraph)
  | [] => .ok []
  | p :: ps => do
    let p' ← fix_paragraph p
    let ps' ← fix_copyright ps
    .ok (p' :: ps')

/-! ### Packaging filter, declaration resolution and aggregation -/

/-- `is_debian_packaging`: a `CopyrightFilesParagraph` whose files pattern is
exactly `debian/*`. -/
def is_debian_packaging : Paragraph → Bool
  | .files pat _ _ => pat == "debian/*"
  | _ => false

/-- Python truthiness of an optional string. -/
def truthy : Option String → Bool
  | some s => !(s == "")
  | none => false

/-- The value of `o` when truthy, `d` otherwise (Python
`x = f(...)`, `if not x: x = d`). -/
def truthyOr (o : Option String) (d : String) : String :=
  if truthy o then o.getD "" else d

/-- The characters stripped from a declared license name
(`declared.strip(': \t')`). -/
def STRIP_SET : List Char := [':', ' ', '\t']

/-- `detect_using_name_mapping`: look the lowercased declared name up in the
declared-to-detected table and re-normalize the hit through the expression
engine. -/
def detect_using_name_mapping {E : Type} (table : String → Option String)
    (L : Licensing E) (declared : String) : Option String :=
  let detected := table (strToLower declared)
  if truthy detected then some (L.toStr (L.parse (detected.getD "")))
  else none

/-- `detect_declared_license`: trim the declared name, return `(None, None)`
when nothing remains, otherwise resolve through the alias table first and
fall back to the free-text detector `compute_normalized_license` (`cnl`). -/
def detect_declared_license {E : Type} (cnl : String → Option String)
    (table : String → Option String) (L : Licensing E)
    (declared : Option String) : Option String × Option String :=
  let d := stripChars (declared.getD "") STRIP_SET
  if d = "" then (none, none)
  else
    let detected := detect_using_name_mapping table L d
    if truthy detected then (some d, detected)
    else (some d, cnl d)

/-- The three order-preserving accumulation lists of `parse_copyright_file`. -/
structure AggState where
  declared : List String
  detected : List String
  copyrights : List String
deriving DecidableEq

/-- One iteration of the paragraph loop of `parse_copyright_file`.  `gne` is
the free-text detector `get_normalized_expression` applied with
`try_as_expression=False`. -/
def processParagraph {E : Type} (cnl gne table : String → Option String)
    (L : Licensing E) (skip_debian_packaging : Bool)
    (st : AggState) (paragraph : Paragraph) : AggState :=
  if skip_debian_packaging && is_debian_packaging paragraph then st
  else
    let st1 :=
      match paragraph with
      | .header _ stmts => { st with copyrights := stmts.foldl addIfAbsent st.copyrights }
      | .files _ _ stmts => { st with copyrights := stmts.foldl addIfAbsent st.copyrights }
      | .catchAll _ _ => st
    match paragraph with
    | .catchAll _ text =>
        if text = "" then st1
        else { st1 with detected := st1.detected ++ [truthyOr (gne text) "unknown"] }
    | p =>
        match p.licenseField with
        | none => st1
        | some plicense =>
          let dd := detect_declared_license cnl table L plicense.name
          let st2 :=
            if truthy dd.1 && !(st1.declared.contains (dd.1.getD "")) then
              { st1 with declared := st1.declared ++ [dd.1.getD ""] }
            else st1
          let st3 :=
            if truthy dd.2 && !(st2.detected.contains (dd.2.getD "")) then
              { st2 with detected := st2.detected ++ [dd.2.getD ""] }
            else st2
          match plicense.text with
          | none => st3
          | some text =>
            if text = "" then st3
            else
              let det := truthyOr (gne text) "unknown"
              { st3 with detected := addIfAbsent st3.detected det }

/-- The accumulation state after the paragraph loop of
`parse_copyright_file`. -/
def aggState {E : Type} (cnl gne table : String → Option String)
    (L : Licensing E) (skip_debian_packaging : Bool)
    (ps : List Paragraph) : AggState :=
  ps.foldl (processParagraph cnl gne table L skip_debian_packaging) ⟨[], [], []⟩

/-- Reduction of the collected detected-expression strings to one string:
parse, AND when more than one, optionally simplify, render; `unknown` when
the list is empty. -/
def reduce_detected {E : Type} (L : Licensing E) (simplify_licenses : Bool)
    (detected : List String) : String :=
  match detected with
  | [] => "unknown"
  | ds =>
    let e :=
      match ds.map L.parse with
      | [e] => e
      | es => L.AND es
    let e := if simplify_licenses then L.simplify e else e
    L.toStr e

/-- The reduction phase of `parse_copyright_file` over a repaired document. -/
def aggregate {E : Type} (cnl gne table : String → Option String)
    (L : Licensing E) (skip_debian_packaging simplify_licenses : Bool)
    (ps : List Paragraph) : CopyrightResult :=
  let st := aggState cnl gne table L skip_debian_packaging ps
  ⟨joinNL st.declared, reduce_detected L simplify_licenses st.detected, joinNL st.copyrights⟩

/-- `parse_copyright_file`: repair the parsed document, then aggregate
declared licenses, detected license expressions and copyright statements. -/
def parse_copyright_file {E : Type} (cnl gne table : String → Option String)
    (L : Licensing E) (doc : List Paragraph)
    (skip_debian_packaging simplify_licenses : Bool) : Except String CopyrightResult :=
  (fix_copyright doc).map
    (aggregate cnl gne table L skip_debian_packaging simplify_licenses)

/-! ### The declared-to-detected alias table (`get_declared_to_detected`) -/

/-- One line of the tab-separated data file: strip the line, split at the
first tab, accept when the part after the tab is non-blank, and strip the
key. -/
def parseLine (line : String) : Option (String × String) :=
  let s := pyStrip line
  let p := partitionTab s.data
  let detect : String := ⟨p.2⟩
  if detect ≠ "" ∧ pyStrip detect ≠ "" then some (pyStrip ⟨p.1⟩, detect)
  else none

/-- Python dict assignment `d[k] = v`: overwrite in place, or append a fresh
key. -/
def dictInsert (t : List (String × String)) (kv : String × String) : List (String × String) :=
  if t.any (fun p => p.1 == kv.1) then
    t.map (fun p => if p.1 == kv.1 then kv else p)
  else t ++ [kv]

/-- The table built by `get_declared_to_detected` from the data file lines. -/
def buildTable (lines : List String) : List (String × String) :=
  (lines.filterMap parseLine).foldl dictInsert []

/-- Python `d.get(k)` on the association-list dict. -/
def tableGet (t : List (String × String)) (k : String) : Option String :=
  match t.find? (fun p => p.1 == k) with
  | some p => some p.2
  | none => none

/-- The lookup function of the table built from the data file lines. -/
def get_declared_to_detected_pure (lines : List String) : String → Option String :=
  fun k => tableGet (buildTable lines) k

/-- `get_declared_to_detected` with the module-global cache made explicit:
`cache` is `_DECLARED_TO_DETECTED`, `fs` maps a `data_file` argument to the
lines of that data source.  Returns the mapping, the new cache, and whether
the data source was read.  The cache guard is Python truthiness, so an empty
cached dict does not short-circuit. -/
def get_declared_to_detected (cache : Option (List (String × String)))
    (fs : Option String → List String) (data_file : Option String) :
    List (String × String) × Option (List (String × String)) × Bool :=
  match cache with
  | some t =>
    if t ≠ [] then (t, some t, false)
    else
      let t' := buildTable (fs data_file)
      (t', some t', true)
  | none =>
    let t' := buildTable (fs data_file)
    (t', some t', true)

/-! ### Sample collaborators used to instantiate theorems -/

/-- A free-text detector that never detects anything. -/
def cnl0 : String → Option String := fun _ => none

/-- A text detector that never detects anything. -/
def gne0 : String → Option String := fun _ => none

/-- An empty alias table. -/
def table0 : String → Option String := fun _ => none

/-- A text detector that always answers `mit`. -/
def gneMit : String → Option String := fun _ => some "mit"

/-- A text detector answering `mit` for `t1` and `gpl-2.0` for `t2`. -/
def gne5 : String → Option String :=
  fun t => if t = "t1" then some "mit" else if t = "t2" then some "gpl-2.0" else none

/-- A free-text detector that always produces an independent guess. -/
def cnlWrong : String → Option String := fun _ => some "wrong-guess"

/-- Data-file lines for a small alias table. -/
def lines0 : List String := ["mit\tmit", "gpl\tgpl-2.0"]

/-- A data source with no usable line. -/
def fsEmpty : Option String → List String := fun _ => []

/-- A data source with one usable line. -/
def fsAB : Option String → List String := fun _ => ["a\tb"]

/-! ### Helper lemmas -/

theorem leadsWith_cons_iff {a : Char} {as l : List Char} :
    leadsWith (a :: as) l = true ↔ ∃ bs, l = a :: bs ∧ leadsWith as bs = true := by
  cases l with
  | nil => simp [leadsWith]
  | cons b bs =>
    simp only [leadsWith, Bool.and_eq_true, beq_iff_eq]
    constructor
    · rintro ⟨rfl, h⟩
      exact ⟨bs, rfl, h⟩
    · rintro ⟨bs', hb, h⟩
      cases hb
      exact ⟨rfl, h⟩

theorem ne_empty_of_strStartsWith (pat : String) {s : String} {a : Char}
    {as : List Char} (hp : pat.data = a :: as)
    (h : strStartsWith s pat = true) : s ≠ "" := by
  intro hs
  subst hs
  rw [strStartsWith, hp] at h
  have : ("" : String).data = [] := rfl
  rw [this] at h
  simp [leadsWith] at h

theorem not_starts_lower_two {s : String} {bs : List Char} (hd : s.data = '2' :: bs)
    (p : String) {a : Char} {as : List Char} (hp : p.data = a :: as)
    (ha : (a == '2') = false) : strStartsWith (strToLower s) p = false := by
  have h2 : Char.toLower '2' = '2' := by decide
  have hld : (strToLower s).data = '2' :: bs.map Char.toLower := by
    simp [strToLower, hd, h2]
  rw [strStartsWith, hp, hld]
  simp [leadsWith, ha]

theorem not_prose_of_200 {s : String} (h : strStartsWith s "200" = true) :
    NOT_A_LICENSE_NAME.any (fun p => strStartsWith (strToLower s) p) = false := by
  have h' : leadsWith ('2' :: '0' :: '0' :: []) s.data = true := h
  obtain ⟨bs, hd, _⟩ := leadsWith_cons_iff.mp h'
  simp only [NOT_A_LICENSE_NAME, List.any_cons, List.any_nil, Bool.or_eq_false_iff]
  refine ⟨?_, ?_, ?_, ?_, ?_, trivial⟩
  · exact not_starts_lower_two hd "according to" rfl (by decide)
  · exact not_starts_lower_two hd "by obtaining" rfl (by decide)
  · exact not_starts_lower_two hd "distributed under the terms of the gnu" rfl (by decide)
  · exact not_starts_lower_two hd
      "gnu general public license version 2 as published by the free" rfl (by decide)
  · exact not_starts_lower_two hd
      "gnu lesser general public license 2.1 as published by the" rfl (by decide)

theorem parseLine_snd_ne {line : String} {kv : String × String}
    (h : parseLine line = some kv) : kv.2 ≠ "" := by
  simp only [parseLine] at h
  split at h
  · injection h with h
    subst h
    exact ‹_ ≠ "" ∧ _›.1
  · cases h

theorem dictInsert_forall {P : String → Prop} {t : List (String × String)}
    {kv : String × String} (ht : ∀ p ∈ t, P p.2) (hkv : P kv.2) :
    ∀ p ∈ dictInsert t kv, P p.2 := by
  intro p hp
  unfold dictInsert at hp
  split at hp
  · obtain ⟨q, hq, hqe⟩ := List.mem_map.mp hp
    by_cases hc : (q.1 == kv.1) = true
    · rw [if_pos hc] at hqe
      exact hqe ▸ hkv
    · rw [if_neg hc] at hqe
      exact hqe ▸ ht q hq
  · rcases List.mem_append.mp hp with h | h
    · exact ht p h
    · rw [List.mem_singleton] at h
      exact h ▸ hkv

theorem foldl_dictInsert_forall (P : String → Prop) :
    ∀ (ps acc : List (String × String)), (∀ p ∈ acc, P p.2) →
      (∀ kv ∈ ps, P kv.2) → ∀ p ∈ ps.foldl dictInsert acc, P p.2 := by
  intro ps
  induction ps with
  | nil => exact fun acc hacc _ p hp => hacc p hp
  | cons kv ps ih =>
    intro acc hacc hps p hp
    rw [List.foldl_cons] at hp
    exact ih _ (dictInsert_forall hacc (hps kv (by simp)))
      (fun q hq => hps q (by simp [hq])) p hp

theorem buildTable_snd_ne {lines : List String} :
    ∀ p ∈ buildTable lines, p.2 ≠ "" := by
  unfold buildTable
  refine foldl_dictInsert_forall (fun v => v ≠ "") _ [] (by simp) ?_
  intro kv hkv
  obtain ⟨line, _, hl⟩ := List.mem_filterMap.mp hkv
  exact parseLine_snd_ne hl

theorem tableGet_ne {lines : List String} {k v : String}
    (h : get_declared_to_detected_pure lines k = some v) : v ≠ "" := by
  unfold get_declared_to_detected_pure tableGet at h
  cases hf : (buildTable lines).find? (fun p => p.1 == k) with
  | none => rw [hf] at h; cases h
  | some p =>
    rw [hf] at h
    injection h with h
    exact h ▸ buildTable_snd_ne p (List.mem_of_find?_eq_some hf)

theorem mem_addIfAbsent_self (l : List String) (s : String) : s ∈ addIfAbsent l s := by
  unfold addIfAbsent
  split
  · exact List.mem_of_elem_eq_true ‹_›
  · simp

theorem mem_addIfAbsent_of_mem {l : List String} {s : String} (h : s ∈ l)
    (t : String) : s ∈ addIfAbsent l t := by
  unfold addIfAbsent
  split
  · exact h
  · exact List.mem_append_left _ h

theorem mem_foldl_addIfAbsent {s : String} :
    ∀ (l acc : List String), s ∈ acc ∨ s ∈ l → s ∈ l.foldl addIfAbsent acc := by
  intro l
  induction l with
  | nil =>
    intro acc h
    simpa using h
  | cons b l ih =>
    intro acc h
    rw [List.foldl_cons]
    rcases h with h | h
    · exact ih _ (Or.inl (mem_addIfAbsent_of_mem h b))
    · rcases List.mem_cons.mp h with rfl | h
      · exact ih _ (Or.inl (mem_addIfAbsent_self acc s))
      · exact ih _ (Or.inr h)

/-- A paragraph on which neither repair rule fires: its license name (empty
when absent) neither starts with `200` nor with a prose prefix. -/
def untouched (q : Paragraph) : Prop :=
  strStartsWith (paraName q) "200" = false
  ∧ NOT_A_LICENSE_NAME.any (fun p => strStartsWith (strToLower (paraName q)) p) = false

theorem except_bind_ok {α β ε : Type} (a : α) (f : α → Except ε β) :
    (Except.ok a >>= f : Except ε β) = f a := rfl

theorem except_bind_error {α β ε : Type} (e : ε) (f : α → Except ε β) :
    (Except.error e >>= f : Except ε β) = .error e := rfl

theorem fix_copyright_cons_eq (p : Paragraph) (ps : List Paragraph) :
    fix_copyright (p :: ps)
      = (fix_paragraph p >>= fun p' =>
          fix_copyright ps >>= fun ps' => .ok (p' :: ps')) := rfl

/-- The prose-repair error message. -/
def UNBOUND_MSG : String :=
  "AttributeError: the name license is unbound in fix_copyright"

theorem fix_paragraph_header_eval (n : String) (tx : Option String)
    (stmts : List String) (hne : n ≠ "") :
    fix_paragraph (.header (some ⟨some n, tx⟩) stmts)
      = if NOT_A_LICENSE_NAME.any (fun p => strStartsWith (strToLower n) p) then
          .error UNBOUND_MSG
        else .ok (if strStartsWith n "200" then
            .header (some ⟨none, tx⟩) (stmts ++ [n])
          else .header (some ⟨some n, tx⟩) stmts) := by
  unfold fix_paragraph
  dsimp only [Paragraph.licenseField, Option.map]
  rw [if_neg hne]
  rfl

theorem fix_paragraph_files_eval (pat n : String) (tx : Option String)
    (stmts : List String) (hne : n ≠ "") :
    fix_paragraph (.files pat (some ⟨some n, tx⟩) stmts)
      = if NOT_A_LICENSE_NAME.any (fun p => strStartsWith (strToLower n) p) then
          .error UNBOUND_MSG
        else .ok (if strStartsWith n "200" then
            .files pat (some ⟨none, tx⟩) (stmts ++ [n])
          else .files pat (some ⟨some n, tx⟩) stmts) := by
  unfold fix_paragraph
  dsimp only [Paragraph.licenseField, Option.map]
  rw [if_neg hne]
  rfl

theorem fix_paragraph_catchAll_eval (n : String) (tx : Option String)
    (text : String) (hne : n ≠ "") :
    fix_paragraph (.catchAll (some ⟨some n, tx⟩) text)
      = if NOT_A_LICENSE_NAME.any (fun p => strStartsWith (strToLower n) p) then
          .error UNBOUND_MSG
        else .ok (.catchAll (some ⟨some n, tx⟩) text) := by
  unfold fix_paragraph
  dsimp only [Paragraph.licenseField, Option.map]
  rw [if_neg hne, ite_self]
  rfl

theorem fix_paragraph_of_untouched {q : Paragraph} (h : untouched q) :
    fix_paragraph q = .ok q := by
  obtain ⟨h200, hpr⟩ := h
  cases q with
  | header lic stmts =>
    match lic with
    | none => rfl
    | some ⟨none, tx⟩ => rfl
    | some ⟨some n, tx⟩ =>
      have hpn : paraName (.header (some ⟨some n, tx⟩) stmts) = n := rfl
      rw [hpn] at h200 hpr
      by_cases hne : n = ""
      · subst hne; rfl
      · rw [fix_paragraph_header_eval n tx stmts hne]
        rw [if_neg (by rw [hpr]; exact Bool.false_ne_true)]
        rw [if_neg (by rw [h200]; exact Bool.false_ne_true)]
  | files pat lic stmts =>
    match lic with
    | none => rfl
    | some ⟨none, tx⟩ => rfl
    | some ⟨some n, tx⟩ =>
      have hpn : paraName (.files pat (some ⟨some n, tx⟩) stmts) = n := rfl
      rw [hpn] at h200 hpr
      by_cases hne : n = ""
      · subst hne; rfl
      · rw [fix_paragraph_files_eval pat n tx stmts hne]
        rw [if_neg (by rw [hpr]; exact Bool.false_ne_true)]
        rw [if_neg (by rw [h200]; exact Bool.false_ne_true)]
  | catchAll lic text =>
    match lic with
    | none => rfl
    | some ⟨none, tx⟩ => rfl
    | some ⟨some n, tx⟩ =>
      have hpn : paraName (.catchAll (some ⟨some n, tx⟩) text) = n := rfl
      rw [hpn] at hpr
      by_cases hne : n = ""
      · subst hne; rfl
      · rw [fix_paragraph_catchAll_eval n tx text hne]
        rw [if_neg (by rw [hpr]; exact Bool.false_ne_true)]

theorem fix_copyright_cons {p p' : Paragraph} {ps ps' : List Paragraph}
    (h1 : fix_paragraph p = .ok p') (h2 : fix_copyright ps = .ok ps') :
    fix_copyright (p :: ps) = .ok (p' :: ps') := by
  rw [fix_copyright_cons_eq, h1, except_bind_ok, h2, except_bind_ok]

theorem fix_copyright_all_untouched {ps : List Paragraph}
    (h : ∀ q ∈ ps, untouched q) : fix_copyright ps = .ok ps := by
  induction ps with
  | nil => rfl
  | cons p ps ih =>
    exact fix_copyright_cons (fix_paragraph_of_untouched (h p (by simp)))
      (ih fun q hq => h q (by simp [hq]))

theorem fix_copyright_append {l1 l2 m1 m2 : List Paragraph}
    (h1 : fix_copyright l1 = .ok m1) (h2 : fix_copyright l2 = .ok m2) :
    fix_copyright (l1 ++ l2) = .ok (m1 ++ m2) := by
  induction l1 generalizing m1 with
  | nil =>
    injection h1 with h1
    subst h1
    simpa using h2
  | cons p ps ih =>
    rw [fix_copyright_cons_eq] at h1
    cases hp : fix_paragraph p with
    | error e => rw [hp, except_bind_error] at h1; cases h1
    | ok p' =>
      rw [hp, except_bind_ok] at h1
      cases hps : fix_copyright ps with
      | error e => rw [hps, except_bind_error] at h1; cases h1
      | ok ps' =>
        rw [hps, except_bind_ok] at h1
        injection h1 with h1
        subst h1
        exact fix_copyright_cons hp (ih hps)

theorem fix_paragraph_header_200 {n : String} (tx : Option String)
    (stmts : List String) (h200 : strStartsWith n "200" = true) :
    fix_paragraph (.header (some ⟨some n, tx⟩) stmts)
      = .ok (.header (some ⟨none, tx⟩) (stmts ++ [n])) := by
  have hne : n ≠ "" := ne_empty_of_strStartsWith "200" rfl h200
  rw [fix_paragraph_header_eval n tx stmts hne]
  rw [if_neg (by rw [not_prose_of_200 h200]; exact Bool.false_ne_true)]
  rw [if_pos h200]

theorem fix_paragraph_files_200 {pat n : String} {tx : Option String}
    {stmts : List String} (h200 : strStartsWith n "200" = true) :
    fix_paragraph (.files pat (some ⟨some n, tx⟩) stmts)
      = .ok (.files pat (some ⟨none, tx⟩) (stmts ++ [n])) := by
  have hne : n ≠ "" := ne_empty_of_strStartsWith "200" rfl h200
  rw [fix_paragraph_files_eval pat n tx stmts hne]
  rw [if_neg (by rw [not_prose_of_200 h200]; exact Bool.false_ne_true)]
  rw [if_pos h200]

theorem fix_paragraph_files_shape {pat : String} {lic : Option LicenseField}
    {stmts : List String}
    (hpr : NOT_A_LICENSE_NAME.any
      (fun p => strStartsWith (strToLower (paraName (.files pat lic stmts))) p) = false) :
    ∃ lic' stmts', fix_paragraph (.files pat lic stmts) = .ok (.files pat lic' stmts') := by
  match lic with
  | none => exact ⟨none, stmts, rfl⟩
  | some ⟨none, tx⟩ => exact ⟨some ⟨none, tx⟩, stmts, rfl⟩
  | some ⟨some n, tx⟩ =>
    have hpn : paraName (.files pat (some ⟨some n, tx⟩) stmts) = n := rfl
    rw [hpn] at hpr
    by_cases hne : n = ""
    · subst hne
      exact ⟨some ⟨some "", tx⟩, stmts, rfl⟩
    · by_cases h2 : strStartsWith n "200" = true
      · exact ⟨some ⟨none, tx⟩, stmts ++ [n], fix_paragraph_files_200 h2⟩
      · refine ⟨some ⟨some n, tx⟩, stmts, ?_⟩
        rw [fix_paragraph_files_eval pat n tx stmts hne]
        rw [if_neg (by rw [hpr]; exact Bool.false_ne_true)]
        rw [if_neg h2]

theorem except_map_ok {α β ε : Type} (f : α → β) (a : α) :
    Except.map f (Except.ok a : Except ε α) = .ok (f a) := rfl

theorem parse_eval_ok {E : Type} (cnl gne table : String → Option String)
    (L : Licensing E) {doc fixed : List Paragraph} (skip simpf : Bool)
    (hfix : fix_copyright doc = .ok fixed) :
    parse_copyright_file cnl gne table L doc skip simpf
      = .ok (aggregate cnl gne table L skip simpf fixed) := by
  unfold parse_copyright_file
  rw [hfix]
  rfl

theorem detect_declared_license_eval {E : Type}
    (cnl table : String → Option String) (L : Licensing E) (name : String)
    (hd : stripChars name STRIP_SET ≠ "") :
    detect_declared_license cnl table L (some name)
      = (if truthy (detect_using_name_mapping table L (stripChars name STRIP_SET)) then
          (some (stripChars name STRIP_SET),
            detect_using_name_mapping table L (stripChars name STRIP_SET))
        else (some (stripChars name STRIP_SET), cnl (stripChars name STRIP_SET))) := by
  unfold detect_declared_license
  dsimp only [Option.getD]
  rw [if_neg hd]

theorem detect_using_name_mapping_hit {E : Type} (table : String → Option String)
    (L : Licensing E) (d v : String) (hv : table (strToLower d) = some v)
    (hvne : v ≠ "") :
    detect_using_name_mapping table L d = some (L.toStr (L.parse v)) := by
  unfold detect_using_name_mapping
  dsimp only
  rw [hv]
  rw [if_pos (by simp [truthy, hvne])]
  rfl

theorem skip_header_false (skip : Bool)
    (lic : Option LicenseField) (ss : List String) :
    (skip && is_debian_packaging (.header lic ss)) = false := by
  dsimp only [is_debian_packaging]
  exact Bool.and_false skip

theorem processParagraph_header_noname {E : Type} (L : Licensing E)
    (cnl gne table : String → Option String) (skip : Bool) (st : AggState)
    (t : Option String) (ss : List String) :
    (processParagraph cnl gne table L skip st (.header (some ⟨none, t⟩) ss)).declared
        = st.declared
    ∧ (processParagraph cnl gne table L skip st (.header (some ⟨none, t⟩) ss)).copyrights
        = ss.foldl addIfAbsent st.copyrights := by
  unfold processParagraph
  rw [skip_header_false skip]
  rw [if_neg Bool.false_ne_true]
  dsimp only [Paragraph.licenseField]
  cases t with
  | none => exact ⟨rfl, rfl⟩
  | some text =>
    by_cases h : text = ""
    · subst h
      exact ⟨rfl, rfl⟩
    · dsimp only
      rw [if_neg h]
      exact ⟨rfl, rfl⟩

theorem aggregate_single_packaging {E : Type} (L : Licensing E)
    (cnl gne table : String → Option String) (simpf : Bool)
    (lic : Option LicenseField) (stmts : List String) :
    aggregate cnl gne table L true simpf [.files "debian/*" lic stmts]
      = ⟨"", "unknown", ""⟩ := rfl

/-! ### Claim theorems -/

/-- C1: when the trimmed, lowercased declared name is a key of the alias
table (with its necessarily non-blank value `v`, and a sane engine rendering
`v` to a non-blank string), `detect_declared_license` returns the parsed and
re-normalized table value as the detected expression, and the result is the
same for every free-text detector, so `compute_normalized_license` is never
consulted for that name. -/
theorem alias_hit_uses_table_value {E : Type} (L : Licensing E)
    (lines : List String) (cnl cnl2 : String → Option String) (name v : String)
    (hd : stripChars name STRIP_SET ≠ "")
    (hv : get_declared_to_detected_pure lines
            (strToLower (stripChars name STRIP_SET)) = some v)
    (hs : L.toStr (L.parse v) ≠ "") :
    detect_declared_license cnl (get_declared_to_detected_pure lines) L (some name)
      = (some (stripChars name STRIP_SET), some (L.toStr (L.parse v)))
    ∧ detect_declared_license cnl (get_declared_to_detected_pure lines) L (some name)
      = detect_declared_license cnl2 (get_declared_to_detected_pure lines) L (some name) := by
  have hvne : v ≠ "" := tableGet_ne hv
  have main : ∀ c : String → Option String,
      detect_declared_license c (get_declared_to_detected_pure lines) L (some name)
        = (some (stripChars name STRIP_SET), some (L.toStr (L.parse v))) := by
    intro c
    rw [detect_declared_license_eval c _ L name hd]
    rw [detect_using_name_mapping_hit _ L _ v hv hvne]
    rw [if_pos (by simp [truthy, hs])]
  exact ⟨main cnl, (main cnl).trans (main cnl2).symm⟩

/-- C1 witness: the name `: MIT ` hits the table built from `lines0` and
resolves through it, independently of the free-text detector. -/
theorem alias_hit_uses_table_value_app :
    detect_declared_license cnl0 (get_declared_to_detected_pure lines0) SL (some ": MIT ")
      = (some "MIT", some "mit")
    ∧ detect_declared_license cnl0 (get_declared_to_detected_pure lines0) SL (some ": MIT ")
      = detect_declared_license cnlWrong (get_declared_to_detected_pure lines0) SL (some ": MIT ") :=
  ⟨(alias_hit_uses_table_value SL lines0 cnl0 cnlWrong ": MIT " "mit"
      (by decide) rfl (by decide)).1,
   (alias_hit_uses_table_value SL lines0 cnl0 cnlWrong ": MIT " "mit"
      (by decide) rfl (by decide)).2⟩

/-- C2: the repair branch for license names starting with a recognized prose
prefix references the unbound name `license`, so `fix_copyright` raises on
such a paragraph instead of moving the name into the license text. -/
theorem prose_name_branch_raises :
    fix_copyright
      [Paragraph.header
        (some ⟨some "according to the terms of the GNU GPL", some "existing text"⟩) []]
      = .error UNBOUND_MSG := rfl

/-- C3 counterexample: two CatchAll paragraphs with the same detection
contribute the value twice to the detected-expressions list (there is no
membership test in this branch), and with simplification disabled the
duplicate is visible in the returned detected license. -/
theorem catchall_duplicate_detection :
    (aggState cnl0 gneMit table0 SL true
        [.catchAll none "some text", .catchAll none "some text"]).detected
      = ["mit", "mit"]
    ∧ (parse_copyright_file cnl0 gneMit table0 SL
        [.catchAll none "some text", .catchAll none "some text"] true false).map
        CopyrightResult.detected_license = .ok "mit AND mit" :=
  ⟨rfl, rfl⟩

/-- C3 amended: for a CatchAll paragraph with non-blank rendered text the
aggregation runs the free-text detector and appends the result (or the
literal `unknown` when the detector returns nothing) to the
detected-expressions list unconditionally, with no membership check. -/
theorem catchall_appends_unconditionally {E : Type} (L : Licensing E)
    (cnl gne table : String → Option String) (skip : Bool) (st : AggState)
    (lic : Option LicenseField) (text : String) (h : text ≠ "") :
    processParagraph cnl gne table L skip st (.catchAll lic text)
      = { st with detected := st.detected ++ [truthyOr (gne text) "unknown"] } := by
  unfold processParagraph
  dsimp only [is_debian_packaging]
  rw [Bool.and_false, if_neg Bool.false_ne_true]
  rw [if_neg h]

/-- C3 amended witness: the append happens even when the value is already in
the list. -/
theorem catchall_appends_unconditionally_app :
    processParagraph cnl0 gneMit table0 SL true ⟨[], ["mit"], []⟩
        (.catchAll none "some text")
      = ⟨[], ["mit", "mit"], []⟩ :=
  catchall_appends_unconditionally SL cnl0 gneMit table0 true
    ⟨[], ["mit"], []⟩ none "some text" (by decide)

/-- C7: when the detected-expressions list collected over the repaired
document is empty, `parse_copyright_file` succeeds and returns the sentinel
string `unknown` as the detected license. -/
theorem empty_detection_yields_unknown {E : Type} (L : Licensing E)
    (cnl gne table : String → Option String) (doc fixed : List Paragraph)
    (skip simpf : Bool) (hfix : fix_copyright doc = .ok fixed)
    (hdet : (aggState cnl gne table L skip fixed).detected = []) :
    (parse_copyright_file cnl gne table L doc skip simpf).map
      CopyrightResult.detected_license = .ok "unknown" := by
  rw [parse_eval_ok cnl gne table L skip simpf hfix]
  rw [except_map_ok]
  unfold aggregate
  dsimp only
  rw [hdet]
  rfl

/-- C7 witness: the empty document yields `unknown`. -/
theorem empty_detection_yields_unknown_app :
    (parse_copyright_file cnl0 gne0 table0 SL [] true true).map
      CopyrightResult.detected_license = .ok "unknown" :=
  empty_detection_yields_unknown SL cnl0 gne0 table0 [] [] true true rfl rfl

/-- C8: `detect_declared_license` strips surrounding colon, space and tab
characters before any lookup, so `: MIT ` behaves exactly like `MIT` for
every table and free-text detector, and a name that is absent or trims to
the empty string yields `(none, none)`. -/
theorem declared_name_trimming {E : Type} (L : Licensing E)
    (cnl table : String → Option String) :
    detect_declared_license cnl table L (some ": MIT ")
      = detect_declared_license cnl table L (some "MIT")
    ∧ ∀ name : Option String, stripChars (name.getD "") STRIP_SET = "" →
        detect_declared_license cnl table L name = (none, none) := by
  constructor
  · rfl
  · intro name h
    unfold detect_declared_license
    dsimp only
    rw [h]
    rfl

/-- C8 witness: a name made only of trimmed characters resolves to
`(none, none)`, as does an absent name. -/
theorem declared_name_trimming_app :
    detect_declared_license cnl0 table0 SL (some " : ") = (none, none)
    ∧ detect_declared_license cnl0 table0 SL none = (none, none) :=
  ⟨(declared_name_trimming SL cnl0 table0).2 (some " : ") rfl,
   (declared_name_trimming SL cnl0 table0).2 none rfl⟩

/-- C9 counterexample: a first call whose build yields an empty mapping is
not effectively cached (the guard tests Python truthiness), so a later call
re-reads the data source and can return a different mapping. -/
theorem alias_table_rebuilt_when_empty :
    (get_declared_to_detected none fsEmpty none).1 = []
    ∧ (get_declared_to_detected
        (get_declared_to_detected none fsEmpty none).2.1 fsAB (some "other")).2.2 = true
    ∧ (get_declared_to_detected
        (get_declared_to_detected none fsEmpty none).2.1 fsAB (some "other")).1
      = [("a", "b")] :=
  ⟨rfl, rfl, rfl⟩

/-- C9 amended: once a call has built a non-empty mapping, every later call
returns that same mapping without reading any data source, regardless of the
`data_file` argument. -/
theorem alias_table_cached_when_nonempty (t : List (String × String))
    (fs : Option String → List String) (data_file : Option String)
    (h : t ≠ []) :
    get_declared_to_detected (some t) fs data_file = (t, some t, false) := by
  unfold get_declared_to_detected
  dsimp only
  rw [if_pos h]

/-- C9 amended witness: a non-empty cached table short-circuits the read. -/
theorem alias_table_cached_when_nonempty_app :
    get_declared_to_detected (some [("mit", "mit")]) fsAB (some "x")
      = ([("mit", "mit")], some [("mit", "mit")], false) :=
  alias_table_cached_when_nonempty [("mit", "mit")] fsAB (some "x") (by decide)

/-- C4 counterexample: a `debian/*` Files paragraph with a license name
starting with `200` has the name moved into its own copyright statements by
the repair pass, but the paragraph is then excluded as Debian packaging, so
the name does not appear in the returned copyrights string (which is empty),
contrary to the claim. -/
theorem year_name_lost_in_packaging_paragraph :
    parse_copyright_file cnl0 gne0 table0 SL
      [.files "debian/*" (some ⟨some "2005 Jane Doe", none⟩) []] true true
      = .ok ⟨"", "unknown", ""⟩ := rfl

/-- C4 amended: for a header paragraph whose license name starts with `200`,
the repair pass appends the name to the paragraph's copyright statements and
clears the license name; the paragraph then contributes no declared entry
(the returned declared license of the one-paragraph document is empty) and
the name is among the collected copyright entries. -/
theorem year_prefixed_name_moved {E : Type} (L : Licensing E)
    (cnl gne table : String → Option String) (simpf : Bool)
    (n : String) (t : Option String) (stmts : List String)
    (h200 : strStartsWith n "200" = true) :
    fix_copyright [Paragraph.header (some ⟨some n, t⟩) stmts]
      = .ok [Paragraph.header (some ⟨none, t⟩) (stmts ++ [n])]
    ∧ (aggState cnl gne table L true
        [Paragraph.header (some ⟨none, t⟩) (stmts ++ [n])]).declared = []
    ∧ n ∈ (aggState cnl gne table L true
        [Paragraph.header (some ⟨none, t⟩) (stmts ++ [n])]).copyrights
    ∧ (parse_copyright_file cnl gne table L
        [Paragraph.header (some ⟨some n, t⟩) stmts] true simpf).map
        CopyrightResult.declared_license = .ok "" := by
  have hfixp := fix_paragraph_header_200 t stmts h200
  have hfix : fix_copyright [Paragraph.header (some ⟨some n, t⟩) stmts]
      = .ok [Paragraph.header (some ⟨none, t⟩) (stmts ++ [n])] :=
    fix_copyright_cons hfixp rfl
  have hagg := processParagraph_header_noname L cnl gne table true
    ⟨[], [], []⟩ t (stmts ++ [n])
  have haggState : aggState cnl gne table L true
      [Paragraph.header (some ⟨none, t⟩) (stmts ++ [n])]
      = processParagraph cnl gne table L true ⟨[], [], []⟩
          (Paragraph.header (some ⟨none, t⟩) (stmts ++ [n])) := rfl
  refine ⟨hfix, ?_, ?_, ?_⟩
  · rw [haggState, hagg.1]
  · rw [haggState, hagg.2]
    exact mem_foldl_addIfAbsent _ _ (Or.inr (by simp))
  · rw [parse_eval_ok cnl gne table L true simpf hfix]
    rw [except_map_ok]
    unfold aggregate
    dsimp only
    rw [haggState, hagg.1]
    rfl

/-- C4 amended witness: the moved name for a concrete document. -/
theorem year_prefixed_name_moved_app :
    (parse_copyright_file cnl0 gne0 table0 SL
      [Paragraph.header (some ⟨some "2005 Jane Doe", none⟩) []] true true).map
      CopyrightResult.declared_license = .ok ""
    ∧ "2005 Jane Doe" ∈ (aggState cnl0 gne0 table0 SL true
        [Paragraph.header (some ⟨none, none⟩) ["2005 Jane Doe"]]).copyrights :=
  ⟨(year_prefixed_name_moved SL cnl0 gne0 table0 true "2005 Jane Doe" none [] rfl).2.2.2,
   (year_prefixed_name_moved SL cnl0 gne0 table0 true "2005 Jane Doe" none [] rfl).2.2.1⟩

/-- C5: with a non-empty collected detected-expressions list,
`parse_copyright_file` parses every entry, combines them with boolean AND
when there is more than one, simplifies when `simplify_licenses` is set and
renders the result; and the document detecting exactly `mit` and `gpl-2.0`
yields `mit AND gpl-2.0`, which is boolean-equivalent to the conjunction of
`mit` and `gpl-2.0`. -/
theorem combined_detected_expression {E : Type} (L : Licensing E) :
    (∀ (cnl gne table : String → Option String) (doc fixed : List Paragraph)
      (skip simpf : Bool) (d : String) (ds : List String),
      fix_copyright doc = .ok fixed →
      (aggState cnl gne table L skip fixed).detected = d :: ds →
      (parse_copyright_file cnl gne table L doc skip simpf).map
        CopyrightResult.detected_license
        = .ok (L.toStr (
            if simpf then
              L.simplify (if ds = [] then L.parse d else L.AND ((d :: ds).map L.parse))
            else if ds = [] then L.parse d else L.AND ((d :: ds).map L.parse))))
    ∧ (parse_copyright_file cnl0 gne5 table0 SL
        [.catchAll none "t1", .catchAll none "t2"] true true).map
        CopyrightResult.detected_license = .ok "mit AND gpl-2.0"
    ∧ ∀ v : String → Bool,
        leval v (lparse "mit AND gpl-2.0")
          = (leval v (lparse "mit") && leval v (lparse "gpl-2.0")) := by
  refine ⟨?_, rfl, ?_⟩
  · intro cnl gne table doc fixed skip simpf d ds hfix hdet
    rw [parse_eval_ok cnl gne table L skip simpf hfix]
    rw [except_map_ok]
    unfold aggregate
    dsimp only
    rw [hdet]
    cases ds with
    | nil => rfl
    | cons d2 ds2 => rfl
  · intro v
    show leval v (.conj [.atom "mit", .atom "gpl-2.0"]) = (v "mit" && v "gpl-2.0")
    show (v "mit" && (v "gpl-2.0" && true)) = (v "mit" && v "gpl-2.0")
    rw [Bool.and_true]

/-- C5 witness: a single detected entry is parsed and rendered without AND. -/
theorem combined_detected_expression_app :
    (parse_copyright_file cnl0 gneMit table0 SL
      [.catchAll none "some text"] true false).map
      CopyrightResult.detected_license = .ok "mit" :=
  (combined_detected_expression SL).1 cnl0 gneMit table0
    [.catchAll none "some text"] [.catchAll none "some text"]
    true false "mit" [] rfl rfl

/-- C6 counterexample: a document whose only paragraph is a `debian/*` Files
paragraph does not always yield the three empty results: when that
paragraph's license name starts with a recognized prose prefix the repair
pass raises, so `parse_copyright_file` fails instead of returning them. -/
theorem packaging_paragraph_can_raise :
    (parse_copyright_file cnl0 gne0 table0 SL
      [.files "debian/*" (some ⟨some "according to the terms of X", none⟩) []]
      true true).toOption = none := rfl

/-- C6 amended: `is_debian_packaging` holds exactly for Files paragraphs
whose pattern is literally `debian/*`, and a document whose only paragraph is
such a paragraph yields an empty declared license, the `unknown` detected
license and empty copyrights under packaging exclusion, provided the
paragraph's license name does not start with one of the prose prefixes (so
the repair pass does not raise). -/
theorem packaging_only_excluded {E : Type} (L : Licensing E) :
    (∀ p : Paragraph, is_debian_packaging p = true ↔
        ∃ lic stmts, p = .files "debian/*" lic stmts)
    ∧ ∀ (lic : Option LicenseField) (stmts : List String)
        (cnl gne table : String → Option String) (simpf : Bool),
        NOT_A_LICENSE_NAME.any
          (fun pr => strStartsWith
            (strToLower (paraName (.files "debian/*" lic stmts))) pr) = false →
        parse_copyright_file cnl gne table L [.files "debian/*" lic stmts] true simpf
          = .ok ⟨"", "unknown", ""⟩ := by
  constructor
  · intro p
    cases p with
    | header lic stmts => simp [is_debian_packaging]
    | catchAll lic text => simp [is_debian_packaging]
    | files pat lic stmts =>
      simp only [is_debian_packaging, beq_iff_eq]
      constructor
      · rintro rfl
        exact ⟨lic, stmts, rfl⟩
      · rintro ⟨lic', stmts', h⟩
        injection h with h1 h2 h3
  · intro lic stmts cnl gne table simpf hpr
    obtain ⟨lic', stmts', hfixp⟩ := fix_paragraph_files_shape hpr
    have hfix : fix_copyright [Paragraph.files "debian/*" lic stmts]
        = .ok [Paragraph.files "debian/*" lic' stmts'] :=
      fix_copyright_cons hfixp rfl
    rw [parse_eval_ok cnl gne table L true simpf hfix]
    rw [aggregate_single_packaging]

/-- C6 amended witness: the concrete packaging-only document yields the
empty results. -/
theorem packaging_only_excluded_app :
    parse_copyright_file cnl0 gne0 table0 SL
      [.files "debian/*" (some ⟨some "GPL-2", none⟩) ["stmt"]] true true
      = .ok ⟨"", "unknown", ""⟩ :=
  (packaging_only_excluded SL).2 (some ⟨some "GPL-2", none⟩) ["stmt"]
    cnl0 gne0 table0 true rfl

/-- C10: when the year-prefix repair fires on a header or files paragraph
(license name starting with `200`) and no repair rule fires on any other
paragraph of the document, `fix_copyright` changes only that paragraph,
appending the old name to its copyright statements and clearing its license
name, while its license text, a files paragraph's pattern, and every other
paragraph are left unchanged. -/
theorem year_repair_frame :
    (∀ (pre post : List Paragraph) (n : String) (tx : Option String)
      (stmts : List String),
      strStartsWith n "200" = true →
      (∀ q ∈ pre, untouched q) → (∀ q ∈ post, untouched q) →
      fix_copyright (pre ++ Paragraph.header (some ⟨some n, tx⟩) stmts :: post)
        = .ok (pre ++ Paragraph.header (some ⟨none, tx⟩) (stmts ++ [n]) :: post))
    ∧ ∀ (pre post : List Paragraph) (pat n : String) (tx : Option String)
      (stmts : List String),
      strStartsWith n "200" = true →
      (∀ q ∈ pre, untouched q) → (∀ q ∈ post, untouched q) →
      fix_copyright (pre ++ Paragraph.files pat (some ⟨some n, tx⟩) stmts :: post)
        = .ok (pre ++ Paragraph.files pat (some ⟨none, tx⟩) (stmts ++ [n]) :: post) := by
  constructor
  · intro pre post n tx stmts h200 hpre hpost
    exact fix_copyright_append (fix_copyright_all_untouched hpre)
      (fix_copyright_cons (fix_paragraph_header_200 tx stmts h200)
        (fix_copyright_all_untouched hpost))
  · intro pre post pat n tx stmts h200 hpre hpost
    exact fix_copyright_append (fix_copyright_all_untouched hpre)
      (fix_copyright_cons (fix_paragraph_files_200 h200)
        (fix_copyright_all_untouched hpost))

/-- C10 witness: the repair moves the name in the middle paragraph of a
three-paragraph document and leaves the surrounding paragraphs and the
license text unchanged. -/
theorem year_repair_frame_app :
    fix_copyright
      [Paragraph.catchAll none "free text",
       Paragraph.header (some ⟨some "2006-2010 by The HDF Group.", some "kept text"⟩) ["stmt"],
       Paragraph.files "*" (some ⟨some "MIT", none⟩) []]
      = .ok
      [Paragraph.catchAll none "free text",
       Paragraph.header (some ⟨none, some "kept text"⟩) ["stmt", "2006-2010 by The HDF Group."],
       Paragraph.files "*" (some ⟨some "MIT", none⟩) []] :=
  year_repair_frame.1 [Paragraph.catchAll none "free text"]
    [Paragraph.files "*" (some ⟨some "MIT", none⟩) []]
    "2006-2010 by The HDF Group." (some "kept text") ["stmt"] rfl
    (by
      intro q hq
      rw [List.mem_singleton] at hq
      subst hq
      exact ⟨rfl, rfl⟩)
    (by
      intro q hq
      rw [List.mem_singleton] at hq
      subst hq
      exact ⟨rfl, rfl⟩)

end DebianCopyrightModel
